import Mathlib

/-!
Verification of the jlc2kicad-tauri conversion library (src-tauri/src).

Rust strings are modelled as lists of characters (`Str`); Rust `f64`
arithmetic is modelled by exact rationals (`ℚ`), so `mil2mm` and friends
are exact divisions.  Byte indexing into guaranteed-ASCII strings is
modelled by character indexing (the source only byte-indexes strings all
of whose characters are ASCII hex digits or dashes, where the two agree).
-/

set_option maxHeartbeats 1000000

namespace JLC

abbrev Str := List Char

/-- Shorthand turning a Lean string literal into the character-list model. -/
def lit (s : String) : Str := s.toList

/-- Unicode white-space test backing Rust's `char::is_whitespace` /
`str::trim`. -/
def rustIsWhitespace (c : Char) : Bool :=
  (9 ≤ c.toNat && c.toNat ≤ 13) || c.toNat = 32 || c.toNat = 0x85 ||
  c.toNat = 0xA0 || c.toNat = 0x1680 ||
  (0x2000 ≤ c.toNat && c.toNat ≤ 0x200A) ||
  c.toNat = 0x2028 || c.toNat = 0x2029 || c.toNat = 0x202F ||
  c.toNat = 0x205F || c.toNat = 0x3000

/-- Drop matching characters from the end of a list. -/
def dropWhileEnd (p : Char → Bool) (s : Str) : Str :=
  (s.reverse.dropWhile p).reverse

/-- Model of Rust `str::trim`. -/
def rustTrim (s : Str) : Str :=
  dropWhileEnd rustIsWhitespace (s.dropWhile rustIsWhitespace)

/-- Model of Rust `str::trim_matches(c)`: strips all leading and trailing
occurrences of `c`. -/
def trimMatchesChar (c : Char) (s : Str) : Str :=
  dropWhileEnd (fun x => x == c) (s.dropWhile (fun x => x == c))

/-- Model of Rust `str::trim_end_matches(c)`. -/
def trimEndMatchesChar (c : Char) (s : Str) : Str :=
  dropWhileEnd (fun x => x == c) s

/-- ASCII decimal digit test (`char::is_ascii_digit`). -/
def isAsciiDigit (c : Char) : Bool :=
  48 ≤ c.toNat && c.toNat ≤ 57

/-- ASCII hex digit test (`char::is_ascii_hexdigit`). -/
def isAsciiHexDigit (c : Char) : Bool :=
  isAsciiDigit c || (97 ≤ c.toNat && c.toNat ≤ 102) ||
  (65 ≤ c.toNat && c.toNat ≤ 70)

/-- ASCII alphanumeric test (`char::is_ascii_alphanumeric`). -/
def isAsciiAlphanumeric (c : Char) : Bool :=
  isAsciiDigit c || (65 ≤ c.toNat && c.toNat ≤ 90) ||
  (97 ≤ c.toNat && c.toNat ≤ 122)

/-- ASCII uppercasing of one character; Rust `str::to_uppercase` is Unicode
but the source only relies on its ASCII behaviour. -/
def asciiUpperChar (c : Char) : Char :=
  if 97 ≤ c.toNat && c.toNat ≤ 122 then Char.ofNat (c.toNat - 32) else c

/-- ASCII lowercasing of one character. -/
def asciiLowerChar (c : Char) : Char :=
  if 65 ≤ c.toNat && c.toNat ≤ 90 then Char.ofNat (c.toNat + 32) else c

/-- Model of `str::to_uppercase` on the ASCII fragment the source uses. -/
def asciiUpper (s : Str) : Str := s.map asciiUpperChar

/-- Model of `str::to_lowercase` on the ASCII fragment the source uses. -/
def asciiLower (s : Str) : Str := s.map asciiLowerChar

/-- Model of `str::eq_ignore_ascii_case`. -/
def eqIgnoreAsciiCase (a b : Str) : Bool :=
  asciiLower a == asciiLower b

/-- Indexed universal test modelling `chars().enumerate().all(...)`. -/
def allIndexed (p : Nat → Char → Bool) : Nat → Str → Bool
  | _, [] => true
  | i, c :: cs => p i c && allIndexed p (i + 1) cs

/-- Model of `value.split('|').next().unwrap_or(value)`: the segment before
the first vertical bar. -/
def takeBeforeBar (s : Str) : Str := s.takeWhile (fun c => c != '|')

/-- Model of `uuid_first_part` (lib.rs:272): the pre-`|` segment of a
string. -/
def uuid_first_part (s : Str) : Str := takeBeforeBar s

/-- Model of `looks_like_uuidish` (lib.rs:288, duplicated in
helpers.rs:54): the trimmed pre-`|` segment is 32 hex characters, or 36
characters with dashes at positions 8/13/18/23 and hex elsewhere. -/
def looks_like_uuidish (value : Str) : Bool :=
  let s := rustTrim value
  if s.isEmpty then false
  else
    let first := takeBeforeBar s
    if first.length == 32 && first.all isAsciiHexDigit then true
    else if first.length == 36 then
      (first.get? 8 == some '-') && (first.get? 13 == some '-') &&
      (first.get? 18 == some '-') && (first.get? 23 == some '-') &&
      allIndexed
        (fun i c => i == 8 || i == 13 || i == 18 || i == 23 || isAsciiHexDigit c)
        0 first
    else false

/-- Specification-side reading of the UUID-ish test, written from the
claim: trim, take the segment before any bar; UUID-ish iff length exactly
32 with all hex digits, or length exactly 36 with dashes at positions
8/13/18/23 and hex digits at every other position. -/
def UuidishClaim (value : Str) : Prop :=
  let seg := takeBeforeBar (rustTrim value)
  (seg.length = 32 ∧ ∀ c ∈ seg, isAsciiHexDigit c = true) ∨
  (seg.length = 36 ∧
    seg.get? 8 = some '-' ∧ seg.get? 13 = some '-' ∧
    seg.get? 18 = some '-' ∧ seg.get? 23 = some '-' ∧
    ∀ i c, seg.get? i = some c → i ≠ 8 → i ≠ 13 → i ≠ 18 → i ≠ 23 →
      isAsciiHexDigit c = true)

theorem allIndexed_eq_true_iff (p : Nat → Char → Bool) (s : Str) (n : Nat) :
    allIndexed p n s = true ↔ ∀ i c, s[i]? = some c → p (n + i) c = true := by
  induction s generalizing n with
  | nil => simp [allIndexed]
  | cons a l ih =>
    simp only [allIndexed, Bool.and_eq_true, ih]
    constructor
    · rintro ⟨ha, hrest⟩ i c hi
      cases i with
      | zero =>
        have hc : c = a := by
          have := hi
          simp only [List.getElem?_cons_zero, Option.some.injEq] at this
          exact this.symm
        subst hc
        simpa using ha
      | succ j =>
        have hj : l[j]? = some c := by
          simpa only [List.getElem?_cons_succ] using hi
        have hpj := hrest j c hj
        have heq : n + (j + 1) = n + 1 + j := by omega
        rw [heq]
        exact hpj
    · intro h
      constructor
      · have := h 0 a (by simp)
        simpa using this
      · intro j c hj
        have := h (j + 1) c (by simpa only [List.getElem?_cons_succ] using hj)
        have heq : n + (j + 1) = n + 1 + j := by omega
        rw [heq] at this
        exact this

theorem isEmpty_true_iff (l : Str) : l.isEmpty = true ↔ l = [] := by
  cases l <;> simp [List.isEmpty]

/-- C5: `looks_like_uuidish` accepts exactly the trimmed pre-bar segments
that are 32 hex characters, or 36 characters with dashes at positions
8/13/18/23 and hex digits elsewhere; it accepts the dashed and undashed
example UUIDs and rejects a vendor code and the empty string. -/
theorem claim5_looks_like_uuidish :
    (∀ s : Str, looks_like_uuidish s = true ↔ UuidishClaim s) ∧
    looks_like_uuidish (lit "550e8400-e29b-41d4-a716-446655440000") = true ∧
    looks_like_uuidish (lit "550e8400e29b41d4a716446655440000") = true ∧
    looks_like_uuidish (lit "C12345") = false ∧
    looks_like_uuidish (lit "") = false := by
  refine ⟨fun s => ?_, by decide, by decide, by decide, by decide⟩
  simp only [looks_like_uuidish, UuidishClaim, List.get?_eq_getElem?]
  by_cases hemp : (rustTrim s).isEmpty = true
  · have hnil : rustTrim s = [] := (isEmpty_true_iff _).mp hemp
    rw [if_pos hemp]
    simp [hnil, takeBeforeBar]
  · rw [if_neg hemp]
    by_cases h32 : ((takeBeforeBar (rustTrim s)).length == 32 &&
        (takeBeforeBar (rustTrim s)).all isAsciiHexDigit) = true
    · rw [if_pos h32]
      simp only [Bool.and_eq_true, beq_iff_eq] at h32
      constructor
      · intro _
        exact Or.inl ⟨h32.1, by simpa using List.all_eq_true.mp h32.2⟩
      · intro _
        rfl
    · rw [if_neg h32]
      by_cases h36 : ((takeBeforeBar (rustTrim s)).length == 36) = true
      · rw [if_pos h36]
        simp only [beq_iff_eq] at h36
        constructor
        · intro h
          simp only [Bool.and_eq_true, beq_iff_eq] at h
          obtain ⟨h8, ⟨h13, ⟨h18, ⟨h23, hall⟩⟩⟩⟩ :=
            by simpa [and_assoc] using h
          refine Or.inr ⟨h36, h8, h13, h18, h23, ?_⟩
          intro i c hic hi8 hi13 hi18 hi23
          have hp := (allIndexed_eq_true_iff _ _ 0).mp hall i c hic
          simp only [Nat.zero_add, Bool.or_eq_true, beq_iff_eq, or_assoc] at hp
          rcases hp with h | h | h | h | h
          · exact absurd h hi8
          · exact absurd h hi13
          · exact absurd h hi18
          · exact absurd h hi23
          · exact h
        · intro h
          rcases h with ⟨hl, _⟩ | ⟨_, h8, h13, h18, h23, hrest⟩
          · omega
          · simp only [Bool.and_eq_true, beq_iff_eq, and_assoc]
            refine ⟨h8, h13, h18, h23, ?_⟩
            rw [allIndexed_eq_true_iff]
            intro i c hic
            simp only [Nat.zero_add, Bool.or_eq_true, beq_iff_eq, or_assoc]
            by_cases e8 : i = 8
            · exact Or.inl e8
            by_cases e13 : i = 13
            · exact Or.inr (Or.inl e13)
            by_cases e18 : i = 18
            · exact Or.inr (Or.inr (Or.inl e18))
            by_cases e23 : i = 23
            · exact Or.inr (Or.inr (Or.inr (Or.inl e23)))
            exact Or.inr (Or.inr (Or.inr (Or.inr
              (hrest i c hic e8 e13 e18 e23))))
      · rw [if_neg h36]
        refine ⟨fun h => absurd h (by simp), fun hcl => ?_⟩
        exfalso
        rcases hcl with ⟨hl, hall⟩ | ⟨hl, _⟩
        · exact h32 (by
            simp only [Bool.and_eq_true, beq_iff_eq]
            exact ⟨hl, List.all_eq_true.mpr (by simpa using hall)⟩)
        · exact h36 (by simp [hl])

/-- Model of `mil2mm` (lib.rs:239, helpers.rs:5): mils divided by 3.937,
with `f64` arithmetic modelled exactly over the rationals. -/
def mil2mm (mils : ℚ) : ℚ := mils / 3.937

/-- Model of `FootprintInfo` (lib.rs:207, types.rs:160) with `f64` extrema
modelled as rationals. -/
structure FootprintInfo where
  max_x : ℚ
  max_y : ℚ
  min_x : ℚ
  min_y : ℚ
  footprint_name : Str
  output_dir : Str
  footprint_lib : Str
  model_base_variable : Str
  model_dir : Str
  origin : ℚ × ℚ
  models : List Str
deriving DecidableEq

/-- Model of `FootprintInfo::default` (lib.rs:221, types.rs:174): extrema
seeded at the ±10000 sentinels. -/
def FootprintInfo.default : FootprintInfo where
  max_x := -10000
  max_y := -10000
  min_x := 10000
  min_y := 10000
  footprint_name := []
  output_dir := lit "."
  footprint_lib := lit "footprint"
  model_base_variable := []
  model_dir := lit "packages3d"
  origin := (0, 0)
  models := [lit "STEP"]

/-- Model of `calculate_footprint_bounds` (helpers.rs:336): push one
(x, y) sample into the running extrema. -/
def calculate_footprint_bounds (info : FootprintInfo) (x y : ℚ) : FootprintInfo :=
  { info with
    max_x := max info.max_x x
    max_y := max info.max_y y
    min_x := min info.min_x x
    min_y := min info.min_y y }

/-- Sequential application of `calculate_footprint_bounds` to a list of
(x, y) updates. -/
def applyBounds (info : FootprintInfo) (us : List (ℚ × ℚ)) : FootprintInfo :=
  us.foldl (fun i p => calculate_footprint_bounds i p.1 p.2) info

theorem applyBounds_min_x (info : FootprintInfo) (us : List (ℚ × ℚ)) :
    (applyBounds info us).min_x = (us.map Prod.fst).foldl min info.min_x := by
  induction us generalizing info with
  | nil => rfl
  | cons u l ih => simpa [applyBounds, calculate_footprint_bounds] using ih _

theorem applyBounds_min_y (info : FootprintInfo) (us : List (ℚ × ℚ)) :
    (applyBounds info us).min_y = (us.map Prod.snd).foldl min info.min_y := by
  induction us generalizing info with
  | nil => rfl
  | cons u l ih => simpa [applyBounds, calculate_footprint_bounds] using ih _

theorem applyBounds_max_x (info : FootprintInfo) (us : List (ℚ × ℚ)) :
    (applyBounds info us).max_x = (us.map Prod.fst).foldl max info.max_x := by
  induction us generalizing info with
  | nil => rfl
  | cons u l ih => simpa [applyBounds, calculate_footprint_bounds] using ih _

theorem applyBounds_max_y (info : FootprintInfo) (us : List (ℚ × ℚ)) :
    (applyBounds info us).max_y = (us.map Prod.snd).foldl max info.max_y := by
  induction us generalizing info with
  | nil => rfl
  | cons u l ih => simpa [applyBounds, calculate_footprint_bounds] using ih _

/-- C2 counterexample: a single update at (20000, 20000) leaves
`min_x = 10000`, which is not the arithmetic minimum (20000) of the update
x-coordinates, so the extrema do not in general equal the arithmetic
min/max over the updates alone. -/
theorem claim2_bounds_counterexample :
    (applyBounds FootprintInfo.default [((20000 : ℚ), 20000)]).min_x = 10000 ∧
    (10000 : ℚ) ≠ 20000 := by
  constructor
  · show min (10000 : ℚ) 20000 = 10000
    norm_num
  · norm_num

/-- C2 (amended): the final extrema equal the arithmetic min/max of the
update coordinates folded together with the ±10000 sentinel seeds, and a
default accumulator fed zero updates retains all four sentinels. -/
theorem claim2_bounds_amended (us : List (ℚ × ℚ)) :
    (applyBounds FootprintInfo.default us).min_x =
      (us.map Prod.fst).foldl min 10000 ∧
    (applyBounds FootprintInfo.default us).min_y =
      (us.map Prod.snd).foldl min 10000 ∧
    (applyBounds FootprintInfo.default us).max_x =
      (us.map Prod.fst).foldl max (-10000) ∧
    (applyBounds FootprintInfo.default us).max_y =
      (us.map Prod.snd).foldl max (-10000) ∧
    applyBounds FootprintInfo.default [] = FootprintInfo.default :=
  ⟨applyBounds_min_x _ _, applyBounds_min_y _ _,
   applyBounds_max_x _ _, applyBounds_max_y _ _, rfl⟩

/-- Numeric value of a run of ASCII digits. -/
def digitsToNat (s : Str) : Nat :=
  s.foldl (fun a c => a * 10 + (c.toNat - 48)) 0

/-- Raw decimal scan behind the `str::parse::<f64>()` model: optional
sign, decimal digits with an optional point, optional decimal exponent;
yields the signed digit value, the number of fraction digits, and the
exponent. -/
def parseFRaw (s : Str) : Option (Int × Nat × Int) :=
  if s.isEmpty then none
  else
    let sign : Int := if s.headD ' ' = '-' then -1 else 1
    let rest := if s.headD ' ' = '-' || s.headD ' ' = '+' then s.tail else s
    let mant := rest.takeWhile (fun c => !(c == 'e' || c == 'E'))
    let expPart := rest.drop mant.length
    let intPart := mant.takeWhile isAsciiDigit
    let afterInt := mant.drop intPart.length
    let fracPart? : Option Str :=
      match afterInt with
      | [] => some []
      | '.' :: fr => if fr.all isAsciiDigit then some fr else none
      | _ => none
    match fracPart? with
    | none => none
    | some fracPart =>
      if intPart.length + fracPart.length = 0 then none
      else
        let m : Int := sign * (digitsToNat (intPart ++ fracPart) : Int)
        match expPart with
        | [] => some (m, fracPart.length, 0)
        | _ :: er =>
          let esign : Int := if er.headD ' ' = '-' then -1 else 1
          let edigits := if er.headD ' ' = '-' || er.headD ' ' = '+'
            then er.tail else er
          if edigits.isEmpty || !edigits.all isAsciiDigit then none
          else some (m, fracPart.length, esign * (digitsToNat edigits : Int))

/-- Model of `str::parse::<f64>()` with exact rational semantics.  The
non-finite literals (`inf`, `nan`) that Rust also accepts fall outside the
rational model and are mapped to `none`; the source never feeds them. -/
def parseF (s : Str) : Option ℚ :=
  (parseFRaw s).map
    (fun r => (r.1 : ℚ) / (10 : ℚ) ^ r.2.1 * (10 : ℚ) ^ r.2.2)

theorem parseF_lit_0 : parseF (lit "0") = some 0 := by
  rw [parseF, show parseFRaw (lit "0") = some (0, 0, 0) from by decide]
  norm_num

theorem parseF_lit_10 : parseF (lit "10") = some 10 := by
  rw [parseF, show parseFRaw (lit "10") = some (10, 0, 0) from by decide]
  norm_num

theorem parseF_lit_20 : parseF (lit "20") = some 20 := by
  rw [parseF, show parseFRaw (lit "20") = some (20, 0, 0) from by decide]
  norm_num

/-- Model of `layer_map` (lib.rs:3415): EasyEDA numeric layer ids to KiCad
layer names. -/
def layer_map (layer_id : Str) : Str :=
  if layer_id = lit "1" then lit "F.Cu"
  else if layer_id = lit "2" then lit "B.Cu"
  else if layer_id = lit "3" then lit "F.SilkS"
  else if layer_id = lit "4" then lit "B.SilkS"
  else if layer_id = lit "5" then lit "F.Paste"
  else if layer_id = lit "6" then lit "B.Paste"
  else if layer_id = lit "7" then lit "F.Mask"
  else if layer_id = lit "8" then lit "B.Mask"
  else if layer_id = lit "10" then lit "Edge.Cuts"
  else if layer_id = lit "11" then lit "F.Fab"
  else if layer_id = lit "12" then lit "F.Fab"
  else if layer_id = lit "99" then lit "F.Fab"
  else if layer_id = lit "100" then lit "F.Fab"
  else if layer_id = lit "101" then lit "F.Fab"
  else lit "F.SilkS"

/-- Fields of the `(pad ...)` S-expression emitted by `parse_pad`. -/
structure Pad where
  pad_num : Str
  pad_type : Str
  shape : Str
  at_x : ℚ
  at_y : ℚ
  rotation : ℚ
  size_x : ℚ
  size_y : ℚ
  drill : Option ℚ
  layers : Str
deriving DecidableEq

/-- Model of `parse_pad` (lib.rs:3435): the emitted pad is returned as its
field record together with the updated bounding box. -/
def parse_pad (args : List Str) (info : FootprintInfo) :
    Option (Pad × FootprintInfo) :=
  if args.length < 9 then none
  else
    let shape := args.getD 0 []
    let x := mil2mm ((parseF (args.getD 1 [])).getD 0)
    let y := mil2mm ((parseF (args.getD 2 [])).getD 0)
    let size_x := mil2mm ((parseF (args.getD 3 [])).getD 1)
    let size_y := mil2mm ((parseF (args.getD 4 [])).getD 1)
    let layer := args.getD 5 []
    let pad_num := args.getD 7 []
    let drill_diameter := mil2mm ((parseF (args.getD 8 [])).getD 0) * 2
    let rotation := ((args.get? 10).bind parseF).getD 0
    let info2 := { info with
      max_x := max info.max_x x
      min_x := min info.min_x x
      max_y := max info.max_y y
      min_y := min info.min_y y }
    let pad_type := if layer = lit "11" then lit "thru_hole" else lit "smd"
    let ki_shape :=
      if shape = lit "OVAL" then lit "oval"
      else if shape = lit "RECT" then lit "rect"
      else if shape = lit "ELLIPSE" then lit "circle"
      else if shape = lit "CIRCLE" then lit "circle"
      else lit "oval"
    let layers :=
      if layer = lit "11" then lit "*.Cu *.Mask"
      else if layer = lit "1" then lit "F.Cu F.Paste F.Mask"
      else lit "B.Cu B.Paste B.Mask"
    let drill :=
      if pad_type = lit "thru_hole" ∧ 0 < drill_diameter
      then some drill_diameter else none
    some ({ pad_num := pad_num, pad_type := pad_type, shape := ki_shape,
            at_x := x, at_y := y, rotation := rotation,
            size_x := size_x, size_y := size_y,
            drill := drill, layers := layers }, info2)

/-- Tokenization applied to every shape-language line before dispatch
(lib.rs:2774, 3284): split on `~` and drop empty tokens. -/
def tokenizeShape (line : Str) : List Str :=
  (line.splitOn '~').filter (fun s => !s.isEmpty)

/-- Emitted primitive of `parse_rect`: a filled rectangle or one boundary
line. -/
inductive RectOut
  | fpRect (x1 y1 x2 y2 : ℚ) (layer : Str)
  | fpLine (x1 y1 x2 y2 : ℚ) (layer : Str) (width : ℚ)
deriving DecidableEq

/-- Model of `parse_rect` (lib.rs:3565): a zero stroke width yields a
filled `fp_rect`; a non-zero stroke width yields the single boundary line
from (x1, y1) to (x2, y1); both branches stretch the bounding box over
both corners. -/
def parse_rect (args : List Str) (info : FootprintInfo) :
    Option (RectOut × FootprintInfo) :=
  if args.length < 8 then none
  else
    let x1 := mil2mm ((parseF (args.getD 0 [])).getD 0)
    let y1 := mil2mm ((parseF (args.getD 1 [])).getD 0)
    let dx := mil2mm ((parseF (args.getD 2 [])).getD 0)
    let dy := mil2mm ((parseF (args.getD 3 [])).getD 0)
    let x2 := x1 + dx
    let y2 := y1 + dy
    let layer := layer_map (args.getD 4 (lit "3"))
    let width := mil2mm ((parseF (args.getD 7 (lit "0"))).getD 0.2)
    let info2 := { info with
      max_x := max (max info.max_x x1) x2
      min_x := min (min info.min_x x1) x2
      max_y := max (max info.max_y y1) y2
      min_y := min (min info.min_y y1) y2 }
    if width = 0 then some (.fpRect x1 y1 x2 y2 layer, info2)
    else some (.fpLine x1 y1 x2 y1 layer width, info2)

/-- C1: a PAD record with at least 9 tokens parses; the shape tag maps
OVAL to oval, RECT to rect, ELLIPSE/CIRCLE to circle and anything else to
oval; layer `11` selects a thru-hole pad on `*.Cu *.Mask` whose drill,
when emitted, is twice the mil-to-mm-converted radius field (and is
emitted whenever that value is positive); any other layer selects an smd
pad on single-face copper/paste/mask layers; the concrete record
`PAD~OVAL~0~0~10~10~1~~1~0~0` yields a front-face smd pad with both size
fields equal to 10/3.937 mm. -/
theorem claim1_parse_pad :
    (∀ (args : List Str) (info : FootprintInfo), 9 ≤ args.length →
      ∃ pad info2, parse_pad args info = some (pad, info2) ∧
        (args.getD 0 [] = lit "OVAL" → pad.shape = lit "oval") ∧
        (args.getD 0 [] = lit "RECT" → pad.shape = lit "rect") ∧
        (args.getD 0 [] = lit "ELLIPSE" → pad.shape = lit "circle") ∧
        (args.getD 0 [] = lit "CIRCLE" → pad.shape = lit "circle") ∧
        (args.getD 0 [] ≠ lit "OVAL" → args.getD 0 [] ≠ lit "RECT" →
          args.getD 0 [] ≠ lit "ELLIPSE" → args.getD 0 [] ≠ lit "CIRCLE" →
          pad.shape = lit "oval") ∧
        (args.getD 5 [] = lit "11" →
          pad.pad_type = lit "thru_hole" ∧ pad.layers = lit "*.Cu *.Mask" ∧
          (∀ d, pad.drill = some d →
            d = mil2mm ((parseF (args.getD 8 [])).getD 0) * 2) ∧
          (0 < mil2mm ((parseF (args.getD 8 [])).getD 0) * 2 →
            pad.drill = some (mil2mm ((parseF (args.getD 8 [])).getD 0) * 2))) ∧
        (args.getD 5 [] ≠ lit "11" →
          pad.pad_type = lit "smd" ∧ pad.drill = none ∧
          (pad.layers = lit "F.Cu F.Paste F.Mask" ∨
           pad.layers = lit "B.Cu B.Paste B.Mask"))) ∧
    (tokenizeShape (lit "PAD~OVAL~0~0~10~10~1~~1~0~0") =
      [lit "PAD", lit "OVAL", lit "0", lit "0", lit "10", lit "10",
       lit "1", lit "1", lit "0", lit "0"] ∧
     (parse_pad [lit "OVAL", lit "0", lit "0", lit "10", lit "10",
        lit "1", lit "1", lit "0", lit "0"] FootprintInfo.default).map
        (fun p => (p.1.pad_type, p.1.layers, p.1.shape)) =
      some (lit "smd", lit "F.Cu F.Paste F.Mask", lit "oval") ∧
     (parse_pad [lit "OVAL", lit "0", lit "0", lit "10", lit "10",
        lit "1", lit "1", lit "0", lit "0"] FootprintInfo.default).map
        (fun p => p.1.size_x) = some (10 / 3.937) ∧
     (parse_pad [lit "OVAL", lit "0", lit "0", lit "10", lit "10",
        lit "1", lit "1", lit "0", lit "0"] FootprintInfo.default).map
        (fun p => p.1.size_y) = some (10 / 3.937)) := by
  constructor
  · intro args info h
    rw [parse_pad, if_neg (by omega)]
    refine ⟨_, _, rfl, ?_, ?_, ?_, ?_, ?_, ?_, ?_⟩
    · intro h0
      simp only [h0]
      decide
    · intro h0
      simp only [h0]
      decide
    · intro h0
      simp only [h0]
      decide
    · intro h0
      simp only [h0]
      decide
    · intro h1 h2 h3 h4
      show (if _ then _ else _) = _
      rw [if_neg h1, if_neg h2, if_neg h3, if_neg h4]
    · intro h5
      simp only [h5]
      refine ⟨by decide, by decide, ?_, ?_⟩
      · intro d hd
        by_cases hpos :
            (0 : ℚ) < mil2mm ((parseF (args.getD 8 [])).getD 0) * 2
        · rw [if_pos ⟨by decide, hpos⟩] at hd
          exact (Option.some.injEq _ _ ▸ hd).symm
        · rw [if_neg (fun hc => hpos hc.2)] at hd
          exact absurd hd (by simp)
      · intro hpos
        rw [if_pos ⟨by decide, hpos⟩]
    · intro h5
      simp only [if_neg h5]
      refine ⟨trivial, ?_, ?_⟩
      · exact if_neg (fun hc => absurd hc.1 (by decide))
      · by_cases h1 : args.getD 5 [] = lit "1"
        · rw [if_pos h1]
          exact Or.inl rfl
        · rw [if_neg h1]
          exact Or.inr rfl
  · refine ⟨by decide, by decide, ?_, ?_⟩
    · show some (mil2mm ((parseF (lit "10")).getD 1)) = some (10 / 3.937)
      rw [parseF_lit_10]
      norm_num [mil2mm, Option.getD_some]
    · show some (mil2mm ((parseF (lit "10")).getD 1)) = some (10 / 3.937)
      rw [parseF_lit_10]
      norm_num [mil2mm, Option.getD_some]

/-- C1 witness: the general pad theorem applied to the tokenized concrete
record, with every hypothesis discharged. -/
theorem claim1_parse_pad_witness :
    ∃ pad info2,
      parse_pad [lit "OVAL", lit "0", lit "0", lit "10", lit "10",
        lit "1", lit "1", lit "0", lit "0"] FootprintInfo.default =
        some (pad, info2) ∧
      pad.shape = lit "oval" ∧ pad.pad_type = lit "smd" := by
  obtain ⟨pad, info2, heq, hOval, _, _, _, _, _, hsmd⟩ :=
    claim1_parse_pad.1
      [lit "OVAL", lit "0", lit "0", lit "10", lit "10",
        lit "1", lit "1", lit "0", lit "0"] FootprintInfo.default (by decide)
  exact ⟨pad, info2, heq, hOval (by decide), (hsmd (by decide)).1⟩

/-- C7: a RECT record with at least 8 tokens parses to a filled `fp_rect`
exactly when the stroke-width field converts to zero, and otherwise to the
single boundary line from (x1, y1) to (x2, y1); both branches stretch the
bounding box over both corners (x1, y1) and (x2, y2). -/
theorem claim7_parse_rect (args : List Str) (info : FootprintInfo)
    (h : 8 ≤ args.length) :
    ∃ out info2, parse_rect args info = some (out, info2) ∧
      (mil2mm ((parseF (args.getD 7 (lit "0"))).getD 0.2) = 0 →
        out = .fpRect
          (mil2mm ((parseF (args.getD 0 [])).getD 0))
          (mil2mm ((parseF (args.getD 1 [])).getD 0))
          (mil2mm ((parseF (args.getD 0 [])).getD 0) +
            mil2mm ((parseF (args.getD 2 [])).getD 0))
          (mil2mm ((parseF (args.getD 1 [])).getD 0) +
            mil2mm ((parseF (args.getD 3 [])).getD 0))
          (layer_map (args.getD 4 (lit "3")))) ∧
      (mil2mm ((parseF (args.getD 7 (lit "0"))).getD 0.2) ≠ 0 →
        out = .fpLine
          (mil2mm ((parseF (args.getD 0 [])).getD 0))
          (mil2mm ((parseF (args.getD 1 [])).getD 0))
          (mil2mm ((parseF (args.getD 0 [])).getD 0) +
            mil2mm ((parseF (args.getD 2 [])).getD 0))
          (mil2mm ((parseF (args.getD 1 [])).getD 0))
          (layer_map (args.getD 4 (lit "3")))
          (mil2mm ((parseF (args.getD 7 (lit "0"))).getD 0.2))) ∧
      info2.min_x = min (min info.min_x
        (mil2mm ((parseF (args.getD 0 [])).getD 0)))
        (mil2mm ((parseF (args.getD 0 [])).getD 0) +
          mil2mm ((parseF (args.getD 2 [])).getD 0)) ∧
      info2.max_x = max (max info.max_x
        (mil2mm ((parseF (args.getD 0 [])).getD 0)))
        (mil2mm ((parseF (args.getD 0 [])).getD 0) +
          mil2mm ((parseF (args.getD 2 [])).getD 0)) ∧
      info2.min_y = min (min info.min_y
        (mil2mm ((parseF (args.getD 1 [])).getD 0)))
        (mil2mm ((parseF (args.getD 1 [])).getD 0) +
          mil2mm ((parseF (args.getD 3 [])).getD 0)) ∧
      info2.max_y = max (max info.max_y
        (mil2mm ((parseF (args.getD 1 [])).getD 0)))
        (mil2mm ((parseF (args.getD 1 [])).getD 0) +
          mil2mm ((parseF (args.getD 3 [])).getD 0)) := by
  rw [parse_rect, if_neg (by omega)]
  by_cases hw : mil2mm ((parseF (args.getD 7 (lit "0"))).getD 0.2) = 0
  · rw [if_pos hw]
    exact ⟨_, _, rfl, fun _ => rfl, fun hne => absurd hw hne,
      rfl, rfl, rfl, rfl⟩
  · rw [if_neg hw]
    exact ⟨_, _, rfl, fun hz => absurd hz hw, fun _ => rfl,
      rfl, rfl, rfl, rfl⟩

/-- C7 witness: the rect theorem applied to concrete arguments with zero
stroke width, giving the filled rectangle branch. -/
theorem claim7_parse_rect_witness :
    ∃ out info2,
      parse_rect [lit "0", lit "0", lit "10", lit "20", lit "3",
        lit "0", lit "0", lit "0"] FootprintInfo.default =
        some (out, info2) ∧
      out = RectOut.fpRect 0 0 (10 / 3.937) (20 / 3.937) (lit "F.SilkS") := by
  obtain ⟨out, info2, heq, hrect, _, _⟩ :=
    claim7_parse_rect [lit "0", lit "0", lit "10", lit "20", lit "3",
      lit "0", lit "0", lit "0"] FootprintInfo.default (by decide)
  refine ⟨out, info2, heq, ?_⟩
  have hw : mil2mm ((parseF ([lit "0", lit "0", lit "10", lit "20", lit "3",
      lit "0", lit "0", lit "0"].getD 7 (lit "0"))).getD 0.2) = 0 := by
    show mil2mm ((parseF (lit "0")).getD 0.2) = 0
    rw [parseF_lit_0]
    norm_num [mil2mm, Option.getD_some]
  rw [hrect hw]
  show RectOut.fpRect (mil2mm ((parseF (lit "0")).getD 0))
      (mil2mm ((parseF (lit "0")).getD 0))
      (mil2mm ((parseF (lit "0")).getD 0) +
        mil2mm ((parseF (lit "10")).getD 0))
      (mil2mm ((parseF (lit "0")).getD 0) +
        mil2mm ((parseF (lit "20")).getD 0))
      (layer_map (lit "3")) = _
  rw [parseF_lit_0, parseF_lit_10, parseF_lit_20,
    show layer_map (lit "3") = lit "F.SilkS" from by decide]
  norm_num [mil2mm, Option.getD_some]

/-- Model of `looks_like_hex_uuid` (lib.rs:1732): the trimmed value is 32
hex characters, or 36 characters with dashes at positions 8/13/18/23 and
hex digits elsewhere. -/
def looks_like_hex_uuid (value : Str) : Bool :=
  let s := rustTrim value
  if s.length == 32 then s.all isAsciiHexDigit
  else if s.length == 36 then
    (s.get? 8 == some '-') && (s.get? 13 == some '-') &&
    (s.get? 18 == some '-') && (s.get? 23 == some '-') &&
    allIndexed
      (fun i c => i == 8 || i == 13 || i == 18 || i == 23 || isAsciiHexDigit c)
      0 s
  else false

/-- Trimming pipeline of `normalize_component_token` (lib.rs:1751):
whitespace, then double quotes, then single quotes, then whitespace. -/
def componentTokenTrim (value : Str) : Str :=
  rustTrim (trimMatchesChar (Char.ofNat 39)
    (trimMatchesChar (Char.ofNat 34) (rustTrim value)))

/-- Model of `normalize_component_token` (lib.rs:1750), the version
compiled into the crate: a trimmed token of `C` followed purely by ASCII
digits is returned uppercased in full; otherwise a UUID-shaped token
passes through unchanged; everything else is rejected. -/
def normalize_component_token (value : Str) : Option Str :=
  let token := componentTokenTrim value
  if token.isEmpty then none
  else
    let upper := asciiUpper token
    if upper.headD ' ' = 'C' ∧ 1 < upper.length ∧
        (upper.drop 1).all isAsciiDigit = true then some upper
    else if looks_like_hex_uuid token then some token
    else none

/-- Model of the duplicate `normalize_component_token` in helpers.rs:318,
which is not part of the compiled crate (helpers.rs is never declared as a
module): trims whitespace only, uppercases a C-token and takes its
alphanumeric prefix, capping the total length at 20, with no UUID
pass-through. -/
def helpers_normalize_component_token (s : Str) : Option Str :=
  let trimmed := rustTrim s
  if trimmed.isEmpty then none
  else
    let upper := asciiUpper trimmed
    if upper.headD ' ' = 'C' then
      let alphanum := upper.takeWhile isAsciiAlphanumeric
      if alphanum ≠ [] ∧ alphanum.length ≤ 20 then some alphanum else none
    else none

theorem dropWhile_eq_self_of (p : Char → Bool) (l : Str)
    (h : ∀ c ∈ l, p c = false) : l.dropWhile p = l := by
  cases l with
  | nil => rfl
  | cons a t => simp [List.dropWhile_cons, h a (List.mem_cons_self a t)]

theorem dropWhileEnd_eq_self_of (p : Char → Bool) (l : Str)
    (h : ∀ c ∈ l, p c = false) : dropWhileEnd p l = l := by
  unfold dropWhileEnd
  rw [dropWhile_eq_self_of p l.reverse
    (fun c hc => h c (List.mem_reverse.mp hc)), List.reverse_reverse]

theorem rustTrim_eq_self_of (l : Str)
    (h : ∀ c ∈ l, rustIsWhitespace c = false) : rustTrim l = l := by
  unfold rustTrim
  rw [dropWhile_eq_self_of _ _ h, dropWhileEnd_eq_self_of _ _ h]

theorem trimMatchesChar_eq_self_of (q : Char) (l : Str)
    (h : ∀ c ∈ l, (c == q) = false) : trimMatchesChar q l = l := by
  unfold trimMatchesChar
  rw [dropWhile_eq_self_of _ _ h, dropWhileEnd_eq_self_of _ _ h]

theorem hex_or_dash_not_special (c : Char)
    (h : isAsciiHexDigit c = true ∨ c = '-') :
    rustIsWhitespace c = false ∧ (c == Char.ofNat 34) = false ∧
      (c == Char.ofNat 39) = false := by
  rcases h with h | h
  · simp only [isAsciiHexDigit, isAsciiDigit, Bool.or_eq_true,
      Bool.and_eq_true, decide_eq_true_eq] at h
    refine ⟨?_, ?_, ?_⟩
    · rw [Bool.eq_false_iff]
      intro hw
      simp only [rustIsWhitespace, Bool.or_eq_true, Bool.and_eq_true,
        decide_eq_true_eq] at hw
      omega
    · rw [Bool.eq_false_iff]
      intro hq
      have hc : c = Char.ofNat 34 := by
        have := of_decide_eq_true hq
        exact this
      subst hc
      revert h
      decide
    · rw [Bool.eq_false_iff]
      intro hq
      have hc : c = Char.ofNat 39 := by
        have := of_decide_eq_true hq
        exact this
      subst hc
      revert h
      decide
  · subst h
    decide

/-- Specification-side shape of the C4 claim's tokens: exactly 32 hex
characters, or exactly 36 characters with dashes at byte positions
8/13/18/23 and hex digits at every other position. -/
def HexUuidShape (s : Str) : Prop :=
  (s.length = 32 ∧ ∀ c ∈ s, isAsciiHexDigit c = true) ∨
  (s.length = 36 ∧ s[8]? = some '-' ∧ s[13]? = some '-' ∧
    s[18]? = some '-' ∧ s[23]? = some '-' ∧
    ∀ i c, s[i]? = some c → i ≠ 8 → i ≠ 13 → i ≠ 18 → i ≠ 23 →
      isAsciiHexDigit c = true)

theorem hexUuidShape_chars (s : Str) (h : HexUuidShape s) :
    ∀ c ∈ s, isAsciiHexDigit c = true ∨ c = '-' := by
  intro c hc
  rcases h with ⟨_, hall⟩ | ⟨_, h8, h13, h18, h23, hrest⟩
  · exact Or.inl (hall c hc)
  · obtain ⟨i, hi, hieq⟩ := List.mem_iff_getElem.mp hc
    have hopt : s[i]? = some c := by
      rw [List.getElem?_eq_getElem hi, hieq]
    by_cases e8 : i = 8
    · rw [e8, h8] at hopt
      exact Or.inr (Option.some.inj hopt).symm
    by_cases e13 : i = 13
    · rw [e13, h13] at hopt
      exact Or.inr (Option.some.inj hopt).symm
    by_cases e18 : i = 18
    · rw [e18, h18] at hopt
      exact Or.inr (Option.some.inj hopt).symm
    by_cases e23 : i = 23
    · rw [e23, h23] at hopt
      exact Or.inr (Option.some.inj hopt).symm
    exact Or.inl (hrest i c hopt e8 e13 e18 e23)


theorem componentTokenTrim_eq_self (s : Str)
    (h : ∀ c ∈ s, isAsciiHexDigit c = true ∨ c = '-') :
    componentTokenTrim s = s := by
  have hws : ∀ c ∈ s, rustIsWhitespace c = false :=
    fun c hc => (hex_or_dash_not_special c (h c hc)).1
  have hq34 : ∀ c ∈ s, (c == Char.ofNat 34) = false :=
    fun c hc => (hex_or_dash_not_special c (h c hc)).2.1
  have hq39 : ∀ c ∈ s, (c == Char.ofNat 39) = false :=
    fun c hc => (hex_or_dash_not_special c (h c hc)).2.2
  unfold componentTokenTrim
  rw [rustTrim_eq_self_of _ hws, trimMatchesChar_eq_self_of _ _ hq34,
    trimMatchesChar_eq_self_of _ _ hq39, rustTrim_eq_self_of _ hws]

theorem looks_like_hex_uuid_of_shape (s : Str) (h : HexUuidShape s) :
    looks_like_hex_uuid s = true := by
  have htr : rustTrim s = s := rustTrim_eq_self_of _
    (fun c hc => (hex_or_dash_not_special c (hexUuidShape_chars s h c hc)).1)
  simp only [looks_like_hex_uuid, htr]
  rcases h with ⟨hl, hall⟩ | ⟨hl, h8, h13, h18, h23, hrest⟩
  · rw [if_pos (by simp [hl])]
    exact List.all_eq_true.mpr hall
  · rw [if_neg (by simp [hl]), if_pos (by simp [hl])]
    simp only [Bool.and_eq_true, beq_iff_eq, List.get?_eq_getElem?, and_assoc]
    refine ⟨h8, h13, h18, h23, ?_⟩
    rw [allIndexed_eq_true_iff]
    intro i c hic
    simp only [Nat.zero_add, Bool.or_eq_true, beq_iff_eq, or_assoc]
    by_cases e8 : i = 8
    · exact Or.inl e8
    by_cases e13 : i = 13
    · exact Or.inr (Or.inl e13)
    by_cases e18 : i = 18
    · exact Or.inr (Or.inr (Or.inl e18))
    by_cases e23 : i = 23
    · exact Or.inr (Or.inr (Or.inr (Or.inl e23)))
    exact Or.inr (Or.inr (Or.inr (Or.inr (hrest i c hic e8 e13 e18 e23))))

/-- C3 counterexample: the live normalizer returns `C` followed by 21
digits in full (the claim demands rejection past 20 characters after the
`C`), and rejects `CAB12` outright (the claim demands its alphanumeric
prefix). -/
theorem claim3_normalize_counterexample :
    normalize_component_token (lit "C123456789012345678901") =
      some (lit "C123456789012345678901") ∧
    normalize_component_token (lit "CAB12") = none := by decide

/-- C3 (amended): after trimming whitespace and quotes, a token starting
with `C` (case-insensitive) followed by one or more ASCII digits only is
uppercased and returned in full with no length cap; `c12345` gives
`C12345`, `  C999  ` gives `C999`, and `C` followed by 21 digits is
accepted; only the dead duplicate in helpers.rs caps the length at 20. -/
theorem claim3_normalize_amended :
    (∀ s : Str,
      componentTokenTrim s ≠ [] →
      (asciiUpper (componentTokenTrim s)).headD ' ' = 'C' →
      1 < (asciiUpper (componentTokenTrim s)).length →
      ((asciiUpper (componentTokenTrim s)).drop 1).all isAsciiDigit = true →
      normalize_component_token s = some (asciiUpper (componentTokenTrim s))) ∧
    normalize_component_token (lit "c12345") = some (lit "C12345") ∧
    normalize_component_token (lit "  C999  ") = some (lit "C999") ∧
    normalize_component_token (lit "C123456789012345678901") =
      some (lit "C123456789012345678901") ∧
    helpers_normalize_component_token (lit "C123456789012345678901") =
      none := by
  refine ⟨fun s h0 h1 h2 h3 => ?_, by decide, by decide, by decide, by decide⟩
  simp only [normalize_component_token]
  rw [if_neg (by simpa [isEmpty_true_iff] using h0), if_pos ⟨h1, h2, h3⟩]

/-- C3 witness: the amended normalization theorem applied to the concrete
token `c12345`. -/
theorem claim3_normalize_amended_witness :
    normalize_component_token (lit "c12345") = some (lit "C12345") := by
  have h := claim3_normalize_amended.1 (lit "c12345")
    (by decide) (by decide) (by decide) (by decide)
  rw [h]
  decide

/-- C4 counterexample: a 32-hex token starting with `c` and otherwise all
decimal digits is uppercased by the normalizer, not passed through
unchanged as the claim states. -/
theorem claim4_uuid_passthrough_counterexample :
    normalize_component_token (lit "c0000000000000000000000000000000") =
      some (lit "C0000000000000000000000000000000") ∧
    lit "C0000000000000000000000000000000" ≠
      lit "c0000000000000000000000000000000" := by decide

/-- C4 (amended): a 32-hex or 36-dash token is always accepted, and is
returned unchanged unless it starts with `c`/`C` followed purely by ASCII
digits, in which case the C-token branch fires first and returns it
uppercased. -/
theorem claim4_uuid_passthrough_amended (s : Str) (h : HexUuidShape s) :
    normalize_component_token s =
      some (if (asciiUpper s).headD ' ' = 'C' ∧ 1 < (asciiUpper s).length ∧
          ((asciiUpper s).drop 1).all isAsciiDigit = true
        then asciiUpper s else s) := by
  have hchars := hexUuidShape_chars s h
  have htok : componentTokenTrim s = s := componentTokenTrim_eq_self s hchars
  have hne : s ≠ [] := by
    rcases h with ⟨hl, _⟩ | ⟨hl, _⟩ <;>
      exact fun hnil => by rw [hnil] at hl; simp at hl
  simp only [normalize_component_token, htok]
  rw [if_neg (by simpa [isEmpty_true_iff] using hne)]
  by_cases hC : (asciiUpper s).headD ' ' = 'C' ∧ 1 < (asciiUpper s).length ∧
      ((asciiUpper s).drop 1).all isAsciiDigit = true
  · rw [if_pos hC, if_pos hC]
  · rw [if_neg hC, if_pos (looks_like_hex_uuid_of_shape s h), if_neg hC]

/-- C4 witness: the amended pass-through theorem applied to the undashed
example UUID, which does not hit the C-token branch and so survives
unchanged. -/
theorem claim4_uuid_passthrough_witness :
    normalize_component_token (lit "550e8400e29b41d4a716446655440000") =
      some (lit "550e8400e29b41d4a716446655440000") := by
  have h := claim4_uuid_passthrough_amended
    (lit "550e8400e29b41d4a716446655440000")
    (Or.inl ⟨by decide, by decide⟩)
  rw [h]
  decide

/-- Model of `OfflineDevice` (lib.rs:2165). -/
structure OfflineDevice where
  id : Str
  name : Str
  footprint_uuid : Option Str
  symbol_uuids : List Str
  model_title : Option Str
deriving DecidableEq

/-- Model of `OfflineBundle` (lib.rs:2174); each `BTreeMap` is modelled as
an association list with distinct keys, listed in the map's iteration
(key-sorted) order. -/
structure OfflineBundle where
  devices : List (Str × OfflineDevice)
  footprint_data : List (Str × Str)
  symbol_data : List (Str × Str)
  footprint_titles : List (Str × Str)
  symbol_titles : List (Str × Str)
  symbol_prefix : List (Str × Str)
deriving DecidableEq

/-- Model of `get_symbol_data_by_uuid` (lib.rs:1311): exact key, then the
pre-bar segment as key, then a linear scan on pre-bar segments. -/
def get_symbol_data_by_uuid (bundle : OfflineBundle) (symbol_uuid : Str) :
    Option Str :=
  match bundle.symbol_data.lookup symbol_uuid with
  | some v => some v
  | none =>
    let short := uuid_first_part symbol_uuid
    match bundle.symbol_data.lookup short with
    | some v => some v
    | none =>
      bundle.symbol_data.findSome? (fun kv =>
        if uuid_first_part kv.1 == short then some kv.2 else none)

/-- Model of `get_footprint_title_by_uuid` (lib.rs:1328), identical lookup
strategy over the footprint-title map. -/
def get_footprint_title_by_uuid (bundle : OfflineBundle)
    (footprint_uuid : Str) : Option Str :=
  match bundle.footprint_titles.lookup footprint_uuid with
  | some v => some v
  | none =>
    let short := uuid_first_part footprint_uuid
    match bundle.footprint_titles.lookup short with
    | some v => some v
    | none =>
      bundle.footprint_titles.findSome? (fun kv =>
        if uuid_first_part kv.1 == short then some kv.2 else none)

/-- C8: both offline lookups try an exact-key match, then the query's
pre-bar segment as a key, then a linear scan for the first entry whose
key's pre-bar segment matches, and return `none` exactly when all three
steps fail. -/
theorem claim8_uuid_lookup_fallback (bundle : OfflineBundle) (u : Str) :
    (get_symbol_data_by_uuid bundle u =
      (bundle.symbol_data.lookup u).orElse (fun _ =>
        (bundle.symbol_data.lookup (uuid_first_part u)).orElse (fun _ =>
          bundle.symbol_data.findSome? (fun kv =>
            if uuid_first_part kv.1 == uuid_first_part u
            then some kv.2 else none)))) ∧
    (get_symbol_data_by_uuid bundle u = none ↔
      bundle.symbol_data.lookup u = none ∧
      bundle.symbol_data.lookup (uuid_first_part u) = none ∧
      bundle.symbol_data.findSome? (fun kv =>
        if uuid_first_part kv.1 == uuid_first_part u
        then some kv.2 else none) = none) ∧
    (get_footprint_title_by_uuid bundle u =
      (bundle.footprint_titles.lookup u).orElse (fun _ =>
        (bundle.footprint_titles.lookup (uuid_first_part u)).orElse (fun _ =>
          bundle.footprint_titles.findSome? (fun kv =>
            if uuid_first_part kv.1 == uuid_first_part u
            then some kv.2 else none)))) ∧
    (get_footprint_title_by_uuid bundle u = none ↔
      bundle.footprint_titles.lookup u = none ∧
      bundle.footprint_titles.lookup (uuid_first_part u) = none ∧
      bundle.footprint_titles.findSome? (fun kv =>
        if uuid_first_part kv.1 == uuid_first_part u
        then some kv.2 else none) = none) := by
  refine ⟨?_, ?_, ?_, ?_⟩
  · cases h1 : bundle.symbol_data.lookup u with
    | some v => simp [get_symbol_data_by_uuid, h1, Option.orElse]
    | none =>
      cases h2 : bundle.symbol_data.lookup (uuid_first_part u) with
      | some v => simp [get_symbol_data_by_uuid, h1, h2, Option.orElse]
      | none => simp [get_symbol_data_by_uuid, h1, h2, Option.orElse]
  · cases h1 : bundle.symbol_data.lookup u with
    | some v => simp [get_symbol_data_by_uuid, h1]
    | none =>
      cases h2 : bundle.symbol_data.lookup (uuid_first_part u) with
      | some v => simp [get_symbol_data_by_uuid, h1, h2]
      | none => simp [get_symbol_data_by_uuid, h1, h2]
  · cases h1 : bundle.footprint_titles.lookup u with
    | some v => simp [get_footprint_title_by_uuid, h1, Option.orElse]
    | none =>
      cases h2 : bundle.footprint_titles.lookup (uuid_first_part u) with
      | some v => simp [get_footprint_title_by_uuid, h1, h2, Option.orElse]
      | none => simp [get_footprint_title_by_uuid, h1, h2, Option.orElse]
  · cases h1 : bundle.footprint_titles.lookup u with
    | some v => simp [get_footprint_title_by_uuid, h1]
    | none =>
      cases h2 : bundle.footprint_titles.lookup (uuid_first_part u) with
      | some v => simp [get_footprint_title_by_uuid, h1, h2]
      | none => simp [get_footprint_title_by_uuid, h1, h2]

/-- Model of `ElibuSymbolPin` (lib.rs:2190) with `f64` fields as
rationals. -/
structure ElibuSymbolPin where
  x : ℚ
  y : ℚ
  rotation : ℚ
  pin_num : Str
  pin_name : Str
  pin_type : Str
deriving DecidableEq

/-- Model of `ElibuDocAccumulator` (lib.rs:2200); the pin `BTreeMap` is an
association list in iteration order. -/
structure ElibuDocAccumulator where
  doc_type : Str
  uuid : Str
  lines : List Str
  pins : List (Str × ElibuSymbolPin)
deriving DecidableEq

/-- Model of `elibu_pin_type_to_code` (lib.rs:2223). -/
def elibu_pin_type_to_code (pin_type : Str) : Str :=
  let t := asciiLower pin_type
  if t = lit "input" then lit "1"
  else if t = lit "output" then lit "2"
  else if t = lit "bidirectional" then lit "3"
  else if t = lit "power" ∨ t = lit "power_in" then lit "4"
  else lit "0"

/-- Fraction digits of a decimal expansion, with fuel; used to render the
`f64` pin coordinates the way Rust `Display` prints the terminating
decimals the source actually produces. -/
def fmtRatFracDigits (fuel num den : Nat) : Str :=
  match fuel with
  | 0 => []
  | fuel + 1 =>
    if num = 0 then []
    else Char.ofNat (48 + num * 10 / den) ::
      fmtRatFracDigits fuel (num * 10 % den) den

/-- Decimal rendering of a rational, standing in for Rust's `f64`
`Display`; exact on terminating decimal expansions, which covers every
value the source formats. -/
def fmtRat (q : ℚ) : Str :=
  (if q < 0 then ['-'] else []) ++ Nat.toDigits 10 (q.num.natAbs / q.den) ++
  (if q.num.natAbs % q.den = 0 then []
   else '.' :: fmtRatFracDigits 60 (q.num.natAbs % q.den) q.den)

/-- Pin shape-language line built on flush (lib.rs:2265-2280): a pin with
an empty pin number is rendered with pin number `0`. -/
def render_elibu_pin (pin : ElibuSymbolPin) : Str :=
  let pin_num := if pin.pin_num.isEmpty then lit "0" else pin.pin_num
  lit "P~1~" ++ elibu_pin_type_to_code pin.pin_type ++ lit "~" ++ pin_num ++
  lit "~" ++ fmtRat pin.x ++ lit "~" ++ fmtRat pin.y ++ lit "~" ++
  fmtRat pin.rotation ++ lit "~0~0~0~0~0~0~0~" ++ pin.pin_name

/-- Model of `BTreeMap::entry(k).or_insert_with(v)`: inserts only when the
key is absent.  Appending models insertion; key order of the association
list is not relied upon by any claim. -/
def mapEntryOrInsert (m : List (Str × Str)) (k v : Str) : List (Str × Str) :=
  if (m.lookup k).isSome then m else m ++ [(k, v)]

/-- Model of `Vec::join("\n")`. -/
def joinLines (ls : List Str) : Str := List.intercalate (lit "\n") ls

/-- Model of `flush_elibu_doc` (lib.rs:2256): an empty accumulated UUID
discards the document, leaving the bundle untouched; a SYMBOL document
renders its pins after its lines into `symbol_data`; a FOOTPRINT document
stores its lines into `footprint_data`; the accumulator is reset. -/
def flush_elibu_doc (acc : ElibuDocAccumulator) (bundle : OfflineBundle) :
    ElibuDocAccumulator × OfflineBundle :=
  if acc.uuid.isEmpty then
    ({ doc_type := [], uuid := acc.uuid, lines := [], pins := [] }, bundle)
  else
    let bundle2 :=
      if eqIgnoreAsciiCase acc.doc_type (lit "SYMBOL") then
        let lines2 := acc.lines ++ acc.pins.map (fun p => render_elibu_pin p.2)
        if lines2.isEmpty then bundle
        else { bundle with
                 symbol_data := mapEntryOrInsert bundle.symbol_data
                   acc.uuid (joinLines lines2) }
      else if eqIgnoreAsciiCase acc.doc_type (lit "FOOTPRINT") then
        if acc.lines.isEmpty then bundle
        else { bundle with
                 footprint_data := mapEntryOrInsert bundle.footprint_data
                   acc.uuid (joinLines acc.lines) }
      else bundle
    ({ doc_type := [], uuid := [], lines := [], pins := [] }, bundle2)

/-- C9: flushing with an empty document UUID leaves the bundle unchanged
and resets the accumulator's document type, lines and pins; flushing a
SYMBOL document with a non-empty UUID stores its lines followed by its
rendered pins, and a pin with an absent pin number is rendered exactly as
the same pin with pin number `0`. -/
theorem claim9_flush_elibu_doc :
    (∀ (acc : ElibuDocAccumulator) (bundle : OfflineBundle), acc.uuid = [] →
      flush_elibu_doc acc bundle =
        ({ doc_type := [], uuid := [], lines := [], pins := [] }, bundle)) ∧
    (∀ (acc : ElibuDocAccumulator) (bundle : OfflineBundle), acc.uuid ≠ [] →
      eqIgnoreAsciiCase acc.doc_type (lit "SYMBOL") = true →
      acc.lines ++ acc.pins.map (fun p => render_elibu_pin p.2) ≠ [] →
      (flush_elibu_doc acc bundle).2.symbol_data =
        mapEntryOrInsert bundle.symbol_data acc.uuid
          (joinLines
            (acc.lines ++ acc.pins.map (fun p => render_elibu_pin p.2)))) ∧
    (∀ pin : ElibuSymbolPin, pin.pin_num = [] →
      render_elibu_pin pin =
        render_elibu_pin { pin with pin_num := lit "0" }) := by
  refine ⟨?_, ?_, ?_⟩
  · intro acc bundle h
    simp [flush_elibu_doc, h]
  · intro acc bundle hne hsym hlines
    simp only [flush_elibu_doc]
    rw [if_neg (by simpa [isEmpty_true_iff] using hne), if_pos hsym,
      if_neg (by simpa [isEmpty_true_iff] using hlines)]
  · intro pin h
    simp [render_elibu_pin, h, lit]

/-- C9 witness: the flush theorem instantiated at a concrete accumulator
with an empty UUID and a concrete bundle, which are returned reset and
untouched respectively. -/
theorem claim9_flush_elibu_doc_witness :
    flush_elibu_doc
      { doc_type := lit "SYMBOL", uuid := [], lines := [lit "L"],
        pins := [(lit "1",
          { x := 0, y := 0, rotation := 0, pin_num := [],
            pin_name := lit "A", pin_type := lit "input" })] }
      { devices := [], footprint_data := [], symbol_data := [],
        footprint_titles := [], symbol_titles := [], symbol_prefix := [] } =
      ({ doc_type := [], uuid := [], lines := [], pins := [] },
       { devices := [], footprint_data := [], symbol_data := [],
         footprint_titles := [], symbol_titles := [], symbol_prefix := [] }) :=
  claim9_flush_elibu_doc.1 _ _ rfl

/-- Model of `NetworkSettings` (lib.rs:52, types.rs:40). -/
structure NetworkSettings where
  easyeda_use_proxy : Bool
  lcsc_use_proxy : Bool
  proxy_address : Str
deriving DecidableEq

/-- Model of `NetworkSettings::default` (lib.rs:58). -/
def NetworkSettings.defaultSettings : NetworkSettings where
  easyeda_use_proxy := true
  lcsc_use_proxy := false
  proxy_address := lit "http://127.0.0.1:10808"

/-- Model of `JlcError` (lib.rs:23); the external error payloads are
carried as their rendered message strings. -/
inductive JlcError
  | RequestError (msg : Str)
  | ApiError (msg : Str)
  | IoError (msg : Str)
  | JsonError (msg : Str)
  | ParseError (msg : Str)
deriving DecidableEq

/-- Model of `set_network_settings` (lib.rs:81, network.rs:17).  The
process-wide mutex-guarded store is modelled by explicit state passing,
and `reqwest::Proxy::all` (external to this repository) by the `validate`
parameter; a traffic class whose flag is set is validated only when the
trimmed proxy address is non-empty, and a validation failure returns an
error without touching the store; otherwise the store is replaced. -/
def set_network_settings (validate : Str → Bool)
    (settings store : NetworkSettings) :
    Except JlcError Unit × NetworkSettings :=
  let proxy_addr := rustTrim settings.proxy_address
  if settings.easyeda_use_proxy && !proxy_addr.isEmpty &&
      !validate proxy_addr then
    (Except.error (JlcError.ApiError (lit "代理地址无效")), store)
  else if settings.lcsc_use_proxy && !proxy_addr.isEmpty &&
      !validate proxy_addr then
    (Except.error (JlcError.ApiError (lit "代理地址无效")), store)
  else
    (Except.ok (), settings)

/-- Model of `get_network_settings` (lib.rs:74): returns a copy of the
stored settings. -/
def get_network_settings (store : NetworkSettings) : NetworkSettings :=
  store

/-- C10 counterexample: with the easyeda use-proxy flag set and an empty
proxy address, the code skips validation entirely (even under a validator
that rejects the empty address, as `reqwest::Proxy::all("")` does) and
commits the settings, so it neither validates nor leaves the store
unchanged, contradicting the claim. -/
theorem claim10_network_settings_counterexample :
    set_network_settings (fun _ => false)
      { easyeda_use_proxy := true, lcsc_use_proxy := false,
        proxy_address := [] } NetworkSettings.defaultSettings =
      (Except.ok (),
        { easyeda_use_proxy := true, lcsc_use_proxy := false,
          proxy_address := [] }) ∧
    ({ easyeda_use_proxy := true, lcsc_use_proxy := false,
        proxy_address := [] } : NetworkSettings) ≠
      NetworkSettings.defaultSettings := by
  exact ⟨rfl, by decide⟩

/-- C10 (amended): when a traffic class enables its use-proxy flag and the
trimmed proxy address is non-empty, a failing validation returns an error
and leaves the store unchanged; when no enabled class fails validation
(including the empty-address case, which skips validation), the store is
atomically replaced with the new settings, and a subsequent get returns
them. -/
theorem claim10_network_settings_amended :
    (∀ (validate : Str → Bool) (settings store : NetworkSettings),
      (settings.easyeda_use_proxy = true ∨ settings.lcsc_use_proxy = true) →
      rustTrim settings.proxy_address ≠ [] →
      validate (rustTrim settings.proxy_address) = false →
      set_network_settings validate settings store =
        (Except.error (JlcError.ApiError (lit "代理地址无效")), store)) ∧
    (∀ (validate : Str → Bool) (settings store : NetworkSettings),
      (settings.easyeda_use_proxy &&
        !(rustTrim settings.proxy_address).isEmpty &&
        !validate (rustTrim settings.proxy_address)) = false →
      (settings.lcsc_use_proxy &&
        !(rustTrim settings.proxy_address).isEmpty &&
        !validate (rustTrim settings.proxy_address)) = false →
      set_network_settings validate settings store = (Except.ok (), settings) ∧
      get_network_settings
        ((set_network_settings validate settings store).2) = settings) := by
  constructor
  · intro validate settings store hor hne hval
    have hie : (rustTrim settings.proxy_address).isEmpty = false := by
      rw [Bool.eq_false_iff]
      intro h
      exact hne ((isEmpty_true_iff _).mp h)
    cases he : settings.easyeda_use_proxy with
    | true => simp [set_network_settings, he, hie, hval]
    | false =>
      cases hl : settings.lcsc_use_proxy with
      | true => simp [set_network_settings, he, hl, hie, hval]
      | false =>
        rcases hor with h | h
        · rw [he] at h
          exact absurd h (by simp)
        · rw [hl] at h
          exact absurd h (by simp)
  · intro validate settings store h1 h2
    simp only [set_network_settings]
    rw [if_neg (by simp [h1]), if_neg (by simp [h2])]
    exact ⟨rfl, rfl⟩

/-- C10 witness: the amended theorem's failure branch applied to a
concrete rejecting validator, non-empty address and default store. -/
theorem claim10_network_settings_amended_witness :
    set_network_settings (fun _ => false)
      { easyeda_use_proxy := true, lcsc_use_proxy := false,
        proxy_address := lit "badurl" } NetworkSettings.defaultSettings =
      (Except.error (JlcError.ApiError (lit "代理地址无效")),
        NetworkSettings.defaultSettings) :=
  claim10_network_settings_amended.1 _ _ _ (Or.inl rfl) (by decide) rfl

/-- Model of `serde_json::Value` restricted to the shapes the claims
exercise; numbers are carried as integers. -/
inductive Json where
  | null
  | bool (b : Bool)
  | num (n : Int)
  | str (s : Str)
  | arr (items : List Json)
  | obj (fields : List (Str × Json))

/-- Model of `Value::get(key)` on objects. -/
def Json.get (j : Json) (key : Str) : Option Json :=
  match j with
  | .obj fields => fields.lookup key
  | _ => none

/-- Model of `Value::as_str`. -/
def Json.asStr : Json → Option Str
  | .str s => some s
  | _ => none

/-- Model of `first_non_empty_str` (lib.rs:276): first key whose value is
a string with non-empty trim, returned trimmed. -/
def first_non_empty_str (value : Json) : List Str → Option Str
  | [] => none
  | k :: ks =>
    match (value.get k).bind Json.asStr with
    | some v =>
      let trimmed := rustTrim v
      if trimmed.isEmpty then first_non_empty_str value ks else some trimmed
    | none => first_non_empty_str value ks

/-- Hex digit character for JSON escapes. -/
def hexDigitChar (n : Nat) : Char :=
  if n < 10 then Char.ofNat (48 + n) else Char.ofNat (87 + n)

/-- One character of serde_json's string escaping. -/
def escapeJsonChar (c : Char) : Str :=
  if c = Char.ofNat 34 then [Char.ofNat 92, Char.ofNat 34]
  else if c = Char.ofNat 92 then [Char.ofNat 92, Char.ofNat 92]
  else if c.toNat = 8 then [Char.ofNat 92, 'b']
  else if c.toNat = 9 then [Char.ofNat 92, 't']
  else if c.toNat = 10 then [Char.ofNat 92, 'n']
  else if c.toNat = 12 then [Char.ofNat 92, 'f']
  else if c.toNat = 13 then [Char.ofNat 92, 'r']
  else if c.toNat < 32 then
    [Char.ofNat 92, 'u', '0', '0',
     hexDigitChar (c.toNat / 16), hexDigitChar (c.toNat % 16)]
  else [c]

/-- Quoted, escaped JSON string literal. -/
def escapeJsonString (s : Str) : Str :=
  Char.ofNat 34 :: s.foldr (fun c acc => escapeJsonChar c ++ acc)
    [Char.ofNat 34]

/-- Decimal rendering of an integer. -/
def intToStr (n : Int) : Str :=
  if n < 0 then '-' :: Nat.toDigits 10 n.natAbs else Nat.toDigits 10 n.natAbs

mutual

/-- Model of `serde_json::to_string` (compact serialization). -/
def Json.serialize : Json → Str
  | .null => lit "null"
  | .bool true => lit "true"
  | .bool false => lit "false"
  | .num n => intToStr n
  | .str s => escapeJsonString s
  | .arr items =>
    '[' :: (List.intercalate [','] (serializeItems items) ++ [']'])
  | .obj fields =>
    Char.ofNat 123 ::
      (List.intercalate [','] (serializeFields fields) ++ [Char.ofNat 125])

def serializeItems : List Json → List Str
  | [] => []
  | j :: js => Json.serialize j :: serializeItems js

def serializeFields : List (Str × Json) → List Str
  | [] => []
  | kv :: rest =>
    (escapeJsonString kv.1 ++ ':' :: Json.serialize kv.2) ::
      serializeFields rest

end

/-- Word character of the regex engine: `[0-9A-Za-z_]`. -/
def isWordChar (c : Char) : Bool :=
  isAsciiAlphanumeric c || c = '_'

/-- Leftmost-match scan modelling `component_id_regex` (lib.rs:1727),
the case-sensitive regex `\bC\d{3,}\b`: a capital `C` not preceded by a
word character, followed by a maximal run of at least three digits that is
not followed by a word character. -/
def findCcodeAux : Bool → Str → Option Str
  | _, [] => none
  | prevWord, c :: rest =>
    if c = 'C' ∧ prevWord = false then
      let run := rest.takeWhile isAsciiDigit
      if 3 ≤ run.length ∧
          isWordChar ((rest.drop run.length).headD ' ') = false then
        some ('C' :: run)
      else findCcodeAux (isWordChar c) rest
    else findCcodeAux (isWordChar c) rest

/-- First `C\d{3,}` word-bounded match in a string. -/
def component_id_regex_find (s : Str) : Option Str := findCcodeAux false s

/-- Key list probed on the device record itself (lib.rs:496). -/
def productCodeKeys : List Str :=
  [lit "product_code", lit "productCode", lit "code", lit "lcsc",
   lit "partNumber", lit "part_number"]

/-- Key list probed on the attributes record (lib.rs:501). -/
def attrsCodeKeys : List Str :=
  [lit "product_code", lit "Product Code", lit "LCSC", lit "LCSC Part",
   lit "LCSC Part #", lit "Part Number", lit "Code"]

/-- The `attrs` binding of `extract_preferred_local_id` (lib.rs:491):
the attributes sub-object, or the device itself when absent. -/
def epliAttrs (device : Json) : Json :=
  (device.get (lit "attributes")).getD device

/-- UUID-style fallback of step 3 (lib.rs:528): id/uuid keys on the
device, then uuid on attributes, normalized. -/
def epliIdFallback (device attrs : Json) : Option Str :=
  ((first_non_empty_str device [lit "id", lit "uuid"]).orElse
    (fun _ => first_non_empty_str attrs [lit "uuid"])).bind
    normalize_component_token

/-- Steps 2 and 3 of `extract_preferred_local_id` (lib.rs:519-530): scan
the serialized record for the first C-code, else fall back to id/uuid. -/
def epliRest (device attrs : Json) : Option Str :=
  match component_id_regex_find (Json.serialize device) with
  | some m =>
    match normalize_component_token m with
    | some id => some id
    | none => epliIdFallback device attrs
  | none => epliIdFallback device attrs

/-- Model of `extract_preferred_local_id` (lib.rs:490): explicit
vendor-code keys first (kept only when the normalized form starts with
`C`), then the serialized-JSON regex scan, then id/uuid fields. -/
def extract_preferred_local_id (device : Json) : Option Str :=
  match ((first_non_empty_str device productCodeKeys).orElse
      (fun _ => first_non_empty_str (epliAttrs device) attrsCodeKeys)).bind
      normalize_component_token with
  | some v =>
    if (asciiUpper v).headD ' ' = 'C' then some v
    else epliRest device (epliAttrs device)
  | none => epliRest device (epliAttrs device)

/-- Specification-side step (a): an explicit vendor-code field whose
normalized form starts with `C`. -/
def epliStep1 (device : Json) : Option Str :=
  match ((first_non_empty_str device productCodeKeys).orElse
      (fun _ => first_non_empty_str (epliAttrs device) attrsCodeKeys)).bind
      normalize_component_token with
  | some v => if (asciiUpper v).headD ' ' = 'C' then some v else none
  | none => none

/-- Specification-side step (b): regex scan of the serialized record. -/
def epliStep2 (device : Json) : Option Str :=
  (component_id_regex_find (Json.serialize device)).bind
    normalize_component_token

/-- Specification-side step (c): normalized id/uuid fields. -/
def epliStep3 (device : Json) : Option Str :=
  ((first_non_empty_str device [lit "id", lit "uuid"]).orElse
    (fun _ => first_non_empty_str (epliAttrs device) [lit "uuid"])).bind
    normalize_component_token

theorem epliRest_eq (device : Json) :
    epliRest device (epliAttrs device) =
      (epliStep2 device).orElse (fun _ => epliStep3 device) := by
  simp only [epliRest, epliStep2, epliStep3, epliIdFallback]
  cases hf : component_id_regex_find (Json.serialize device) with
  | none => simp [Option.orElse]
  | some m =>
    cases hn : normalize_component_token m with
    | some id => simp [hn, Option.orElse]
    | none => simp [hn, Option.orElse]

/-- C6: a device whose `product_code` field normalizes to a C-prefixed
vendor code resolves to that code (never the id/uuid field), and the
resolution order is explicit vendor-code keys, then the regex scan of the
serialized record, then normalized id/uuid fields. -/
theorem claim6_extract_preferred_local_id :
    (∀ (device : Json) (raw v : Str),
      device.get (lit "product_code") = some (Json.str raw) →
      rustTrim raw ≠ [] →
      normalize_component_token (rustTrim raw) = some v →
      (asciiUpper v).headD ' ' = 'C' →
      extract_preferred_local_id device = some v) ∧
    (∀ device : Json,
      extract_preferred_local_id device =
        (epliStep1 device).orElse (fun _ =>
          (epliStep2 device).orElse (fun _ => epliStep3 device))) := by
  constructor
  · intro device raw v hget hne hnorm hC
    have h1 : first_non_empty_str device productCodeKeys =
        some (rustTrim raw) := by
      simp only [productCodeKeys, first_non_empty_str, hget, Json.asStr,
        Option.bind]
      rw [if_neg (by simpa [isEmpty_true_iff] using hne)]
    unfold extract_preferred_local_id
    rw [h1, Option.some_orElse', Option.some_bind, hnorm]
    show (if (asciiUpper v).headD ' ' = 'C' then some v
      else epliRest device (epliAttrs device)) = some v
    rw [if_pos hC]
  · intro device
    unfold extract_preferred_local_id epliStep1
    cases hd : ((first_non_empty_str device productCodeKeys).orElse
        (fun _ => first_non_empty_str (epliAttrs device) attrsCodeKeys)).bind
        normalize_component_token with
    | none =>
      show epliRest device (epliAttrs device) =
        (epliStep2 device).orElse (fun _ => epliStep3 device)
      exact epliRest_eq device
    | some v =>
      show (if (asciiUpper v).headD ' ' = 'C' then some v
          else epliRest device (epliAttrs device)) =
        ((if (asciiUpper v).headD ' ' = 'C' then some v else none).orElse
          (fun _ => (epliStep2 device).orElse (fun _ => epliStep3 device)))
      by_cases hC : (asciiUpper v).headD ' ' = 'C'
      · rw [if_pos hC, if_pos hC, Option.some_orElse']
      · rw [if_neg hC, if_neg hC]
        show epliRest device (epliAttrs device) =
          (epliStep2 device).orElse (fun _ => epliStep3 device)
        exact epliRest_eq device

/-- C6 witness: a concrete device with both a `product_code` of `C1001`
and a UUID `id` resolves to `C1001`. -/
theorem claim6_extract_preferred_local_id_witness :
    extract_preferred_local_id (Json.obj
      [(lit "product_code", Json.str (lit "C1001")),
       (lit "id", Json.str (lit "550e8400-e29b-41d4-a716-446655440000"))]) =
      some (lit "C1001") :=
  claim6_extract_preferred_local_id.1
    (Json.obj
      [(lit "product_code", Json.str (lit "C1001")),
       (lit "id", Json.str (lit "550e8400-e29b-41d4-a716-446655440000"))])
    (lit "C1001") (lit "C1001") rfl (by decide) (by decide) (by decide)

end JLC
